import Mathlib

/-!
Verification of the download engine in `io.go` (package-mirroring tool).

The Go source is shallowly embedded: pure string manipulation (`urljoin`)
becomes a Lean function, the global logger state becomes an explicit state
type with a reachability relation, and the concurrent download pipeline
(`Download`) becomes a deterministic function parameterised by an
environment `DlEnv` supplying the results of HTTP fetches, file creation,
body streaming and checksum validation.  Since every job is taken by
exactly one worker and delivered exactly once, the multiset of deliveries
is independent of scheduling; we use the input-order linearisation.
`workerRun` additionally models one worker goroutine at the level of an
event trace, including Go `defer` semantics (deferred calls run LIFO when
the enclosing *function* returns, not at the end of a loop iteration).
-/

/-! ## Logging severities (io.go lines 14-19) -/

def LOG_CAT_ERROR : Nat := 0

def LOG_CAT_WARN : Nat := 1

def LOG_CAT_INFO : Nat := 2

def LOG_CAT_DEBUG : Nat := 3

/-! ## Global logger state (io.go lines 21-24, 37-53) -/

/-- The package-level mutable state of io.go: `logfileHandle` and `logger`.
File handles and loggers are abstracted as numeric descriptors. -/
structure LogState where
  logfileHandle : Option Nat
  logger : Option Nat
deriving DecidableEq, Repr

/-- The initial state: both package-level variables are nil (io.go lines 21-24). -/
def initLogState : LogState := ⟨none, none⟩

/-- `InitLogFile` (io.go lines 37-46): when `LogFilePath` is empty it returns at
once; otherwise it opens the log file (the freshly opened handle is supplied by
the environment as `openedHandle`; an open failure panics the whole process, so
no post-state is reachable from it) and stores a logger over that handle in the
package-level `logger`.  The handle itself is bound only to the local `f`:
`logfileHandle` is never assigned. -/
def InitLogFile (logFilePath : String) (openedHandle : Nat) (s : LogState) : LogState :=
  if logFilePath = "" then s
  else { s with logger := some openedHandle }

/-- `CloseLogFile` (io.go lines 49-53): closes `logfileHandle` when it is
non-nil.  Returns the post-state and whether a close was performed. -/
def CloseLogFile (s : LogState) : LogState × Bool :=
  match s.logfileHandle with
  | some _ => (s, true)
  | none => (s, false)

/-- The reachable package-level logger states: the initial state, closed under
`InitLogFile` (any path, any opened handle) and `CloseLogFile`.  The remaining
functions in io.go only read `logger`. -/
inductive LogReach : LogState → Prop
  | init : LogReach initLogState
  | initLog (p : String) (h : Nat) (s : LogState) : LogReach s →
      LogReach (InitLogFile p h s)
  | closeLog (s : LogState) : LogReach s → LogReach (CloseLogFile s).1

/-! ## urljoin (io.go lines 120-132) -/

/-- `strings.TrimRight(s, "/")`: drop all trailing slash characters. -/
def trimRightSlash (s : String) : String :=
  String.mk ((s.data.reverse.dropWhile (fun c => c = '/')).reverse)

/-- `strings.TrimLeft(s, "/")`: drop all leading slash characters. -/
def trimLeftSlash (s : String) : String :=
  String.mk (s.data.dropWhile (fun c => c = '/'))

/-- `fmt.Sprintf("%s/%s", strings.TrimRight(url, "/"), strings.TrimLeft(s, "/"))`
(io.go line 127). -/
def joinSeg (url s : String) : String :=
  trimRightSlash url ++ "/" ++ trimLeftSlash s

/-- One iteration of the loop body of `urljoin` (io.go lines 123-129). -/
def urljoinStep (url s : String) : String :=
  if url = "" then s
  else if s ≠ "" then joinSeg url s
  else url

/-- `urljoin` (io.go lines 120-132): fold the loop body over the variadic
segment list starting from the empty accumulator. -/
def urljoin (v : List String) : String :=
  v.foldl urljoinStep ""

/-- The joining rule exactly as the claim states it: the first segment is kept
unchanged (even if empty), every subsequent non-empty segment is joined with a
single slash after trimming, and subsequent empty segments are skipped.
Written from the claim's words, to be compared against `urljoin`. -/
def urljoinClaimed : List String → String
  | [] => ""
  | s :: rest => rest.foldl (fun url t => if t = "" then url else joinSeg url t) s

/-- The amended description of `urljoin`: *leading* empty segments are skipped
entirely; the first non-empty segment is kept unchanged; every later non-empty
segment is joined with a single slash after trimming; empty segments are
skipped; an all-empty list yields the empty string. -/
def urljoinAmended (v : List String) : String :=
  match v.dropWhile (fun s => s = "") with
  | [] => ""
  | s :: rest => rest.foldl (fun url t => if t = "" then url else joinSeg url t) s

/-! ## Download data model (io.go lines 26-35) -/

/-- Classified per-job errors.  In Go all of these are plain `error` values;
the constructors record their provenance and the message they carry.
`checksumMismatch` stands for the sentinel value `yum.ErrChecksumMismatch`,
which the worker stores *as is*; `checksumCompute` is the wrapping
`fmt.Errorf("Checksum validation error: %v", err)`. -/
inductive JobError
  | transport (e : String)
  | badStatus (status : String)
  | createFail (e : String)
  | copyFail (e : String)
  | checksumMismatch
  | checksumCompute (e : String)
deriving DecidableEq, Repr

/-- The Go `Error()` string of each classified error. -/
def JobError.message : JobError → String
  | transport e => e
  | badStatus s => "Bad status: " ++ s
  | createFail e => e
  | copyFail e => e
  | checksumMismatch => "checksum mismatch"
  | checksumCompute e => "Checksum validation error: " ++ e

/-- `DownloadJob` (io.go lines 26-35). -/
structure DownloadJob where
  Label : String
  URL : String
  Size : Nat
  Path : String
  Checksum : String
  ChecksumType : String
  Index : Nat
  Error : Option JobError
deriving DecidableEq, Repr

/-- An HTTP response as consumed by the worker: status code, status text
(`resp.Status`, e.g. "404 Not Found") and the body content. -/
structure HttpResponse where
  statusCode : Nat
  status : String
  content : String
deriving DecidableEq, Repr

/-- Result of `yum.ValidateFileChecksum`: success, the sentinel
`yum.ErrChecksumMismatch`, or some other error with message. -/
inductive VerifyResult
  | ok
  | mismatch
  | fail (msg : String)
deriving DecidableEq, Repr

/-- The environment of one `Download` call: results of the external calls the
worker makes (`http.Get`, `os.Create`, `io.Copy`,
`yum.ValidateFileChecksum`), plus the process-wide configuration
(`DownloadThreads` and whether a log file was configured, i.e. `logger != nil`). -/
structure DlEnv where
  httpGet : String → Except String HttpResponse
  osCreate : String → Except String Unit
  ioCopy : String → String → Option String
  validate : String → String → String → VerifyResult
  downloadThreads : Nat
  loggerConfigured : Bool

/-- Resources a worker acquires while processing a job, tagged by the job's
producer-assigned index: the HTTP response body and the created local file. -/
inductive Res
  | body (idx : Nat)
  | file (idx : Nat)
deriving DecidableEq, Repr

/-- Observable filesystem-level effects of one job's pipeline: file creation
(`os.Create`), streaming the body into the file (`io.Copy`), and the
invocation of the checksum verifier. -/
inductive FsEffect
  | created (path : String)
  | wrote (path : String) (content : String)
  | verified (path : String) (checksum : String) (ctype : String)
deriving DecidableEq, Repr

/-- Outcome of running one job's pipeline: the (possibly updated) job, the
resources acquired (whose `Close` was deferred), in acquisition order, and the
filesystem effects, in order. -/
structure JobResult where
  job : DownloadJob
  acquired : List Res
  effects : List FsEffect
deriving DecidableEq, Repr

/-- The per-job pipeline of the worker (io.go lines 166-206): HTTP GET, status
check, create destination file, stream body, validate checksum; the first
failure sets `Error` and jumps to `JobDone` (skipping everything after it).
`acquired` records `resp.Body` and the created file in acquisition order;
their closes are deferred (see `workerRun`). -/
def runJob (env : DlEnv) (job : DownloadJob) : JobResult :=
  match env.httpGet job.URL with
  | .error e => ⟨{ job with Error := some (.transport e) }, [], []⟩
  | .ok resp =>
    if resp.statusCode ≠ 200 then
      ⟨{ job with Error := some (.badStatus resp.status) }, [.body job.Index], []⟩
    else
      match env.osCreate job.Path with
      | .error e => ⟨{ job with Error := some (.createFail e) }, [.body job.Index], []⟩
      | .ok _ =>
        match env.ioCopy job.Path resp.content with
        | some e =>
          ⟨{ job with Error := some (.copyFail e) },
            [.body job.Index, .file job.Index], [.created job.Path]⟩
        | none =>
          match env.validate job.Path job.Checksum job.ChecksumType with
          | .mismatch =>
            ⟨{ job with Error := some .checksumMismatch },
              [.body job.Index, .file job.Index],
              [.created job.Path, .wrote job.Path resp.content,
                .verified job.Path job.Checksum job.ChecksumType]⟩
          | .fail m =>
            ⟨{ job with Error := some (.checksumCompute m) },
              [.body job.Index, .file job.Index],
              [.created job.Path, .wrote job.Path resp.content,
                .verified job.Path job.Checksum job.ChecksumType]⟩
          | .ok =>
            ⟨job,
              [.body job.Index, .file job.Index],
              [.created job.Path, .wrote job.Path resp.content,
                .verified job.Path job.Checksum job.ChecksumType]⟩

/-- Whether the fetch, status check and persist stages of the pipeline all
succeed for this job in this environment (the job then reaches the verify
stage). -/
def persistOk (env : DlEnv) (job : DownloadJob) : Bool :=
  match env.httpGet job.URL with
  | .error _ => false
  | .ok resp =>
    (resp.statusCode == 200) &&
      (match env.osCreate job.Path with
       | .error _ => false
       | .ok _ => (env.ioCopy job.Path resp.content).isNone)

/-- Whether the entire pipeline (fetch, status check, persist, verify)
succeeds for this job in this environment. -/
def pipelineOk (env : DlEnv) (job : DownloadJob) : Bool :=
  persistOk env job &&
    (env.validate job.Path job.Checksum job.ChecksumType == .ok)

/-- The producer (io.go lines 151-158): for each input job in list order,
assign `Index = i+1` and hand it to the workers. -/
def produceJobs (jobs : List DownloadJob) : List DownloadJob :=
  jobs.enum.map (fun p => { p.2 with Index := p.1 + 1 })

/-! ## Worker trace model (io.go lines 163-220) -/

/-- Events in one worker goroutine's trace: taking a job off the work channel,
acquiring a resource, delivering a finished job (channel send or log), and
closing a resource. -/
inductive WEvent
  | took (idx : Nat)
  | acq (r : Res)
  | close (r : Res)
  | delivered (idx : Nat)
deriving DecidableEq, Repr

/-- One worker goroutine processing its assigned jobs in order, accumulating
the deferred `Close` calls.  `defer` in Go registers the call on the enclosing
*function*, so the closes registered inside the `for job := range c` loop all
run, in LIFO order, only when the goroutine's function returns — after every
assigned job has been processed and delivered. -/
def workerRunAux (env : DlEnv) : List DownloadJob → List Res → List WEvent
  | [], defers => defers.reverse.map WEvent.close
  | j :: rest, defers =>
    let r := runJob env j
    WEvent.took j.Index ::
      (r.acquired.map WEvent.acq ++
        (WEvent.delivered r.job.Index :: workerRunAux env rest (defers ++ r.acquired)))

/-- The full event trace of one worker goroutine over its assigned jobs. -/
def workerRun (env : DlEnv) (jobs : List DownloadJob) : List WEvent :=
  workerRunAux env jobs []

/-- The resources closed in a trace, in order. -/
def closesOf (es : List WEvent) : List Res :=
  es.filterMap (fun e => match e with | WEvent.close r => some r | _ => none)

/-- The resources acquired in a trace, in order. -/
def acquiresOf (es : List WEvent) : List Res :=
  es.filterMap (fun e => match e with | WEvent.acq r => some r | _ => none)

/-- Whether an event is a resource close. -/
def WEvent.isClose : WEvent → Bool
  | WEvent.close _ => true
  | _ => false

/-! ## Logging (io.go lines 56-98) and Download (io.go lines 135-229) -/

/-- One emitted log line: its severity category, whether it went to the log
file (`true`) or to stderr/stdout (`false`), and its text. -/
structure LogLine where
  sev : Nat
  toFile : Bool
  text : String
deriving DecidableEq, Repr

/-- `Errorf` (io.go lines 84-98): when no logger is configured the message goes
to stderr prefixed `ERROR:`, with `": " ++ err.Error()` appended when an error
value is present; when a logger is configured it is routed through
`Logf(LOG_CAT_ERROR, ...)`, which prefixes the category name. -/
def Errorf (loggerConfigured : Bool) (err : Option JobError) (msg : String) : LogLine :=
  if loggerConfigured then
    match err with
    | some e => ⟨LOG_CAT_ERROR, true, "ERROR " ++ msg ++ ": " ++ e.message ++ "\n"⟩
    | none => ⟨LOG_CAT_ERROR, true, "ERROR " ++ msg⟩
  else
    match err with
    | some e => ⟨LOG_CAT_ERROR, false, "ERROR: " ++ msg ++ ": " ++ e.message ++ "\n"⟩
    | none => ⟨LOG_CAT_ERROR, false, "ERROR: " ++ msg ++ "\n"⟩

/-- The observable outcome of one `Download` call. -/
structure DownloadResult where
  deliveries : List DownloadJob
  logged : List LogLine
  closes : Nat
  workersStarted : Nat
  producerStarted : Bool
  ret : Option String
deriving Repr

/-- `Download` (io.go lines 135-229).  The deferred closure closes the
`complete` channel (when non-nil) on every path, once.  An empty job list
returns immediately.  Otherwise the producer tags each job with its 1-based
index, `DownloadThreads` workers run every job through `runJob`, and each
finished job is either sent on `complete` (when non-nil) or, when its `Error`
is non-nil, logged via `Errorf`.  `hasComplete` models `complete != nil`;
deliveries are listed in the input-order linearisation (each job delivered
exactly once by exactly one worker). -/
def Download (env : DlEnv) (jobs : List DownloadJob) (hasComplete : Bool) : DownloadResult :=
  let closes := if hasComplete then 1 else 0
  if jobs.isEmpty then
    ⟨[], [], closes, 0, false, none⟩
  else
    let processed := (produceJobs jobs).map (fun j => (runJob env j).job)
    if hasComplete then
      ⟨processed, [], closes, env.downloadThreads, true, none⟩
    else
      ⟨[],
        processed.filterMap (fun j =>
          j.Error.map (fun e =>
            Errorf env.loggerConfigured (some e) ("Error downloading " ++ j.Label))),
        closes, env.downloadThreads, true, none⟩

/-! ## Concrete environments and jobs, used by witnesses -/

/-- A 200 response with some payload. -/
def respOK : HttpResponse := ⟨200, "200 OK", "payload"⟩

/-- Everything succeeds: fetches return 200, file creation, streaming and
checksum validation all succeed; two workers; no log file configured. -/
def envOK : DlEnv :=
  ⟨fun _ => .ok respOK, fun _ => .ok (), fun _ _ => none, fun _ _ _ => .ok, 2, false⟩

/-- Every fetch returns 404; everything else would succeed. -/
def env404 : DlEnv :=
  ⟨fun _ => .ok ⟨404, "404 Not Found", ""⟩, fun _ => .ok (), fun _ _ => none,
    fun _ _ _ => .ok, 2, false⟩

/-- Fetch and persist succeed but the checksum verifier reports a mismatch. -/
def envMismatch : DlEnv :=
  ⟨fun _ => .ok respOK, fun _ => .ok (), fun _ _ => none, fun _ _ _ => .mismatch, 2, false⟩

/-- Every fetch fails at the transport level. -/
def envDown : DlEnv :=
  ⟨fun _ => .error "connection refused", fun _ => .ok (), fun _ _ => none,
    fun _ _ _ => .ok, 2, false⟩

def jobA : DownloadJob :=
  ⟨"pkg-a", "http://mirror/a.rpm", 10, "/cache/a.rpm", "aa11", "sha256", 0, none⟩

def jobB : DownloadJob :=
  ⟨"pkg-b", "http://mirror/b.rpm", 20, "/cache/b.rpm", "bb22", "sha256", 0, none⟩

/-- A job handed in by the caller with `Index` and `Error` already set. -/
def jobPre : DownloadJob :=
  ⟨"pkg-p", "http://mirror/p.rpm", 5, "/cache/p.rpm", "cc33", "sha256", 7,
    some (.transport "preset")⟩

/-! ## Helper lemmas -/

theorem joinSeg_ne_empty (a b : String) : joinSeg a b ≠ "" := by
  intro h
  have h2 := congrArg String.length h
  simp [joinSeg, String.length_append] at h2
  exact absurd h2.1.2 (by decide)

theorem urljoinStep_ne (url t : String) (h : url ≠ "") :
    urljoinStep url t = if t = "" then url else joinSeg url t := by
  unfold urljoinStep
  rw [if_neg h]
  by_cases ht : t = ""
  · simp [ht]
  · simp [ht]

theorem foldl_urljoinStep_ne (rest : List String) : ∀ url : String, url ≠ "" →
    rest.foldl urljoinStep url =
      rest.foldl (fun url t => if t = "" then url else joinSeg url t) url := by
  induction rest with
  | nil => intro url _; rfl
  | cons t rest ih =>
    intro url h
    simp only [List.foldl_cons]
    rw [urljoinStep_ne url t h]
    by_cases ht : t = ""
    · simpa [ht] using ih url h
    · simpa [ht] using ih (joinSeg url t) (joinSeg_ne_empty url t)

/-- C10 counterexample: on the segment list `["", "a"]` the code returns
`"a"` (the empty first segment leaves the accumulator empty, so the second
segment is also taken unchanged), while the claimed rule — first segment kept,
every subsequent non-empty segment joined with a single slash — yields `"/a"`. -/
theorem urljoin_claim_counterexample :
    urljoin ["", "a"] = "a" ∧ urljoinClaimed ["", "a"] = "/a" ∧
    urljoin ["", "a"] ≠ urljoinClaimed ["", "a"] := by
  refine ⟨by decide, by decide, by decide⟩

/-- C10 (amended): `urljoin` skips all *leading* empty segments; the first
non-empty segment is kept unchanged; every later non-empty segment is appended
with exactly one `/` after trimming the accumulator's trailing and the
segment's leading slashes; later empty segments are skipped; a list of only
empty segments (in particular the empty list) yields the empty string. -/
theorem urljoin_eq_amended (v : List String) : urljoin v = urljoinAmended v := by
  induction v with
  | nil => rfl
  | cons s v ih =>
    by_cases hs : s = ""
    · subst hs
      have h1 : urljoin ("" :: v) = urljoin v := rfl
      have h2 : urljoinAmended ("" :: v) = urljoinAmended v := by
        unfold urljoinAmended
        simp [List.dropWhile_cons]
      rw [h1, h2, ih]
    · have h1 : urljoin (s :: v) = v.foldl urljoinStep s := by
        simp [urljoin, List.foldl_cons, urljoinStep]
      have h2 : urljoinAmended (s :: v) =
          v.foldl (fun url t => if t = "" then url else joinSeg url t) s := by
        unfold urljoinAmended
        simp [List.dropWhile_cons, hs]
      rw [h1, h2]
      exact foldl_urljoinStep_ne v s hs

theorem CloseLogFile_fst (s : LogState) : (CloseLogFile s).1 = s := by
  unfold CloseLogFile
  cases s.logfileHandle <;> rfl

theorem logReach_handle_none (s : LogState) (h : LogReach s) : s.logfileHandle = none := by
  induction h with
  | init => rfl
  | initLog p hd s' _ ih =>
    unfold InitLogFile
    split
    · exact ih
    · exact ih
  | closeLog s' _ ih =>
    rw [CloseLogFile_fst]
    exact ih

/-- C9: in every reachable logger state the package-level `logfileHandle` is
nil — `InitLogFile` binds the opened file only to a local and assigns only
`logger` — so `CloseLogFile` never performs a close and leaves the state
unchanged; in particular a configured log file's handle is never closed by it. -/
theorem logfileHandle_always_nil (s : LogState) (h : LogReach s) :
    s.logfileHandle = none ∧ (CloseLogFile s).2 = false ∧ (CloseLogFile s).1 = s := by
  have h1 := logReach_handle_none s h
  refine ⟨h1, ?_, CloseLogFile_fst s⟩
  unfold CloseLogFile
  rw [h1]

/-- C9 witness: the state reached by configuring a log file from the initial
state still has a nil `logfileHandle`, and `CloseLogFile` is a no-op on it. -/
theorem logfileHandle_always_nil_witness :
    (InitLogFile "y10k.log" 3 initLogState).logfileHandle = none ∧
    (CloseLogFile (InitLogFile "y10k.log" 3 initLogState)).2 = false ∧
    (CloseLogFile (InitLogFile "y10k.log" 3 initLogState)).1 =
      InitLogFile "y10k.log" 3 initLogState :=
  logfileHandle_always_nil (InitLogFile "y10k.log" 3 initLogState)
    (LogReach.initLog "y10k.log" 3 initLogState LogReach.init)

/-! ## Download helper lemmas -/

theorem Download_empty (env : DlEnv) (hasComplete : Bool) :
    Download env [] hasComplete =
      ⟨[], [], if hasComplete then 1 else 0, 0, false, none⟩ := by
  cases hasComplete <;> rfl

theorem Download_deliveries (env : DlEnv) (jobs : List DownloadJob)
    (h : jobs.isEmpty = false) :
    (Download env jobs true).deliveries =
      (produceJobs jobs).map (fun j => (runJob env j).job) := by
  simp [Download, h]

theorem Download_logged (env : DlEnv) (jobs : List DownloadJob)
    (h : jobs.isEmpty = false) :
    (Download env jobs false).logged =
      ((produceJobs jobs).map (fun j => (runJob env j).job)).filterMap (fun j =>
        j.Error.map (fun e =>
          Errorf env.loggerConfigured (some e) ("Error downloading " ++ j.Label))) := by
  simp [Download, h]

theorem runJob_Index (env : DlEnv) (job : DownloadJob) :
    (runJob env job).job.Index = job.Index := by
  unfold runJob
  repeat' split
  all_goals rfl

theorem enumFrom_produce_Index (jobs : List DownloadJob) : ∀ n : Nat,
    (((jobs.enumFrom n).map (fun p => ({ p.2 with Index := p.1 + 1 } : DownloadJob))).map
        (fun j => j.Index)) = List.range' (n + 1) jobs.length := by
  induction jobs with
  | nil => intro n; rfl
  | cons j t ih =>
    intro n
    simp only [List.enumFrom, List.map_cons, List.length_cons, List.range'_succ]
    exact congrArg (List.cons (n + 1)) (ih (n + 1))

theorem produce_map_Index (jobs : List DownloadJob) :
    (produceJobs jobs).map (fun j => j.Index) = List.range' 1 jobs.length :=
  enumFrom_produce_Index jobs 0

/-- C1: for every non-empty batch given to `Download` with a result channel,
exactly `N = jobs.length` jobs are delivered, and the delivered positions are
exactly `1, 2, ..., N` — the delivery at input position `i` carries
`Index = i + 1`, the ordinal the producer assigned in list order (the worker
pipeline never modifies `Index`). -/
theorem download_delivers_all_positions (env : DlEnv) (jobs : List DownloadJob)
    (h : jobs ≠ []) :
    (Download env jobs true).deliveries.length = jobs.length ∧
    (Download env jobs true).deliveries.map (fun j => j.Index) =
      List.range' 1 jobs.length := by
  have hne : jobs.isEmpty = false := by
    cases jobs with
    | nil => exact absurd rfl h
    | cons j t => rfl
  rw [Download_deliveries env jobs hne]
  constructor
  · simp [produceJobs]
  · rw [List.map_map]
    have hfun : ((fun j : DownloadJob => j.Index) ∘ fun j => (runJob env j).job) =
        fun j : DownloadJob => j.Index := funext fun j => runJob_Index env j
    rw [hfun, produce_map_Index]

/-- C1 witness: a concrete two-job batch yields two deliveries with positions
`[1, 2]`. -/
theorem download_delivers_all_positions_witness :
    (Download envOK [jobA, jobB] true).deliveries.length = 2 ∧
    (Download envOK [jobA, jobB] true).deliveries.map (fun j => j.Index) =
      List.range' 1 2 :=
  download_delivers_all_positions envOK [jobA, jobB] (by decide)

/-- C2: with a result channel supplied, `Download` closes the channel exactly
once on every path (the deferred closure registered before any other work);
for the empty batch the channel is closed with zero deliveries, no producer or
worker is started, and `Download` returns no error. -/
theorem download_closes_channel_once (env : DlEnv) (jobs : List DownloadJob) :
    (Download env jobs true).closes = 1 ∧
    (jobs = [] →
      (Download env jobs true).deliveries = [] ∧
      (Download env jobs true).workersStarted = 0 ∧
      (Download env jobs true).producerStarted = false ∧
      (Download env jobs true).ret = none) := by
  constructor
  · unfold Download
    cases jobs with
    | nil => rfl
    | cons j t => rfl
  · intro hj
    subst hj
    exact ⟨rfl, rfl, rfl, rfl⟩

/-- C2 witness: the empty batch with a channel gives one close, zero
deliveries, zero workers, no producer and a nil return. -/
theorem download_closes_channel_once_witness :
    (Download envOK [] true).closes = 1 ∧
    (Download envOK [] true).deliveries = [] ∧
    (Download envOK [] true).workersStarted = 0 ∧
    (Download envOK [] true).producerStarted = false ∧
    (Download envOK [] true).ret = none :=
  ⟨(download_closes_channel_once envOK []).1,
    ((download_closes_channel_once envOK []).2 rfl).1,
    ((download_closes_channel_once envOK []).2 rfl).2.1,
    ((download_closes_channel_once envOK []).2 rfl).2.2.1,
    ((download_closes_channel_once envOK []).2 rfl).2.2.2⟩

/-- C8: `Download` always returns nil, for every environment, job list and
sink choice — per-job failures never surface through the return value. -/
theorem download_returns_nil (env : DlEnv) (jobs : List DownloadJob)
    (hasComplete : Bool) : (Download env jobs hasComplete).ret = none := by
  unfold Download
  cases jobs with
  | nil => rfl
  | cons j t => cases hasComplete <;> rfl

theorem runJob_success (env : DlEnv) (job : DownloadJob)
    (h : pipelineOk env job = true) : (runJob env job).job = job := by
  unfold pipelineOk persistOk at h
  rw [Bool.and_eq_true] at h
  obtain ⟨hper, hval⟩ := h
  cases hg : env.httpGet job.URL with
  | error e => rw [hg] at hper; exact absurd hper (by simp)
  | ok resp =>
    rw [hg] at hper
    rw [Bool.and_eq_true] at hper
    obtain ⟨hstat, hrest⟩ := hper
    have hcode : resp.statusCode = 200 := by
      have := hstat
      simpa using this
    cases hc : env.osCreate job.Path with
    | error e => rw [hc] at hrest; exact absurd hrest (by simp)
    | ok u =>
      rw [hc] at hrest
      cases hcp : env.ioCopy job.Path resp.content with
      | some e => rw [hcp] at hrest; simp at hrest
      | none =>
        have hv : env.validate job.Path job.Checksum job.ChecksumType = .ok := by
          simpa using hval
        simp [runJob, hg, hcode, hc, hcp, hv]

/-- C4 counterexample: `jobPre` carries a caller-set `outcome`
(`transport "preset"`) and, in `envOK`, its entire pipeline succeeds — yet the
delivered job's outcome is still `transport "preset"`, not absent: the worker
only ever *sets* `Error` on failure and never clears a pre-set value. -/
theorem preset_outcome_counterexample :
    pipelineOk envOK { jobPre with Index := 1 } = true ∧
    (Download envOK [jobPre] true).deliveries.map (fun j => j.Error) =
      [some (JobError.transport "preset")] ∧
    (Download envOK [jobPre] true).deliveries.map (fun j => j.Error) ≠ [none] := by
  refine ⟨by decide, by decide, by decide⟩

theorem enumFrom_produce_getElem (t : List DownloadJob) : ∀ n i : Nat,
    ((t.enumFrom n).map (fun p => ({ p.2 with Index := p.1 + 1 } : DownloadJob)))[i]? =
      t[i]?.map (fun j => { j with Index := n + i + 1 }) := by
  induction t with
  | nil => intro n i; simp [List.enumFrom]
  | cons j t ih =>
    intro n i
    cases i with
    | zero => simp [List.enumFrom]
    | succ i =>
      simp only [List.enumFrom, List.map_cons, List.getElem?_cons_succ, ih (n + 1) i]
      have harith : n + 1 + i = n + (i + 1) := by omega
      rw [harith]

theorem produce_getElem (jobs : List DownloadJob) (i : Nat) :
    (produceJobs jobs)[i]? = jobs[i]?.map (fun j => { j with Index := i + 1 }) := by
  have h := enumFrom_produce_getElem jobs 0 i
  simpa [produceJobs, List.enum] using h

theorem pipelineOk_setIndex (env : DlEnv) (job : DownloadJob) (k : Nat) :
    pipelineOk env { job with Index := k } = pipelineOk env job := rfl

/-- C4 (amended): a caller pre-set `position` is indeed ignored — the producer
overwrites `Index` with the 1-based input ordinal — but a caller pre-set
`outcome` is **not** cleared: the worker only assigns `Error` on a stage
failure, so a job whose entire pipeline succeeds is delivered exactly as
produced, with `outcome` equal to whatever the caller passed in (absent only
if the caller left it absent). -/
theorem download_success_delivery_unchanged (env : DlEnv) (jobs : List DownloadJob)
    (i : Nat) (hi : i < jobs.length)
    (hok : pipelineOk env jobs[i] = true) :
    (Download env jobs true).deliveries[i]? = some { jobs[i] with Index := i + 1 } := by
  have hne : jobs.isEmpty = false := by
    cases jobs with
    | nil => exact absurd hi (by simp)
    | cons j t => rfl
  rw [Download_deliveries env jobs hne, List.getElem?_map, produce_getElem jobs i,
    List.getElem?_eq_getElem hi]
  simp only [Option.map_some']
  rw [runJob_success env { jobs[i] with Index := i + 1 }
    (by rw [pipelineOk_setIndex]; exact hok)]

/-- C4 amended witness: a one-job batch whose pipeline succeeds is delivered
as the input job with `Index` overwritten to 1 and `Error` (here pre-set to
`transport "preset"`) untouched. -/
theorem download_success_delivery_unchanged_witness :
    0 < ([jobPre] : List DownloadJob).length ∧
    pipelineOk envOK ([jobPre] : List DownloadJob)[0] = true ∧
    (Download envOK [jobPre] true).deliveries[0]? = some { jobPre with Index := 1 } :=
  ⟨by decide, by decide,
    download_success_delivery_unchanged envOK [jobPre] 0 (by decide) (by decide)⟩

/-- C5: when the HTTP GET for a job returns a non-200 response, the job's
outcome is the `Bad status` error carrying the response's status text
(`fmt.Errorf("Bad status: %v", resp.Status)`), and the pipeline jumps straight
to `JobDone`: no file is created or written at the destination path and the
verifier is never invoked (the effect list is empty). -/
theorem bad_status_short_circuits (env : DlEnv) (job : DownloadJob)
    (resp : HttpResponse) (h1 : env.httpGet job.URL = .ok resp)
    (h2 : resp.statusCode ≠ 200) :
    (runJob env job).job.Error = some (.badStatus resp.status) ∧
    (runJob env job).effects = [] := by
  simp [runJob, h1, h2]

/-- C5 witness: a job fetched in the all-404 environment ends with the
`Bad status: 404 Not Found` outcome and an empty effect list. -/
theorem bad_status_short_circuits_witness :
    env404.httpGet jobA.URL = Except.ok ⟨404, "404 Not Found", ""⟩ ∧
    (404 : Nat) ≠ 200 ∧
    (runJob env404 jobA).job.Error = some (.badStatus "404 Not Found") ∧
    (runJob env404 jobA).effects = [] :=
  ⟨rfl, by decide,
    (bad_status_short_circuits env404 jobA ⟨404, "404 Not Found", ""⟩ rfl (by decide)).1,
    (bad_status_short_circuits env404 jobA ⟨404, "404 Not Found", ""⟩ rfl (by decide)).2⟩

/-- C6: for a job that reaches the verify stage (fetch, status check and
persist all succeeded), a digest mismatch stores the verifier's sentinel
mismatch value itself as the outcome (not a wrapped error); any other verifier
failure is wrapped as a `Checksum validation error`; and a verifier success
leaves the job's outcome untouched. -/
theorem verify_stage_classification (env : DlEnv) (job : DownloadJob)
    (h : persistOk env job = true) :
    (env.validate job.Path job.Checksum job.ChecksumType = .mismatch →
      (runJob env job).job.Error = some .checksumMismatch) ∧
    (∀ m, env.validate job.Path job.Checksum job.ChecksumType = .fail m →
      (runJob env job).job.Error = some (.checksumCompute m)) ∧
    (env.validate job.Path job.Checksum job.ChecksumType = .ok →
      (runJob env job).job.Error = job.Error) := by
  unfold persistOk at h
  cases hg : env.httpGet job.URL with
  | error e => rw [hg] at h; exact absurd h (by simp)
  | ok resp =>
    rw [hg] at h
    rw [Bool.and_eq_true] at h
    obtain ⟨hstat, hrest⟩ := h
    have hcode : resp.statusCode = 200 := by simpa using hstat
    cases hc : env.osCreate job.Path with
    | error e => rw [hc] at hrest; exact absurd hrest (by simp)
    | ok u =>
      rw [hc] at hrest
      cases hcp : env.ioCopy job.Path resp.content with
      | some e => rw [hcp] at hrest; simp at hrest
      | none =>
        refine ⟨fun hv => ?_, fun m hv => ?_, fun hv => ?_⟩ <;>
          simp [runJob, hg, hcode, hc, hcp, hv]

/-- C6 witness: in the all-mismatch environment the persist stage succeeds and
the outcome is the sentinel mismatch value itself. -/
theorem verify_stage_classification_witness :
    persistOk envMismatch jobA = true ∧
    (envMismatch.validate jobA.Path jobA.Checksum jobA.ChecksumType = .mismatch →
      (runJob envMismatch jobA).job.Error = some .checksumMismatch) ∧
    (∀ m, envMismatch.validate jobA.Path jobA.Checksum jobA.ChecksumType = .fail m →
      (runJob envMismatch jobA).job.Error = some (.checksumCompute m)) ∧
    (envMismatch.validate jobA.Path jobA.Checksum jobA.ChecksumType = .ok →
      (runJob envMismatch jobA).job.Error = jobA.Error) :=
  ⟨by decide, verify_stage_classification envMismatch jobA (by decide)⟩

theorem closesOf_map_close (l : List Res) : closesOf (l.map WEvent.close) = l := by
  induction l with
  | nil => rfl
  | cons r t ih => simp only [List.map_cons, closesOf, List.filterMap_cons] at *; rw [ih]

theorem acquiresOf_map_close (l : List Res) : acquiresOf (l.map WEvent.close) = [] := by
  induction l with
  | nil => rfl
  | cons r t ih => simp only [List.map_cons, acquiresOf, List.filterMap_cons] at *; rw [ih]

theorem closesOf_map_acq (l : List Res) : closesOf (l.map WEvent.acq) = [] := by
  induction l with
  | nil => rfl
  | cons r t ih => simp only [List.map_cons, closesOf, List.filterMap_cons] at *; rw [ih]

theorem acquiresOf_map_acq (l : List Res) : acquiresOf (l.map WEvent.acq) = l := by
  induction l with
  | nil => rfl
  | cons r t ih => simp only [List.map_cons, acquiresOf, List.filterMap_cons] at *; rw [ih]

theorem workerRunAux_closes (env : DlEnv) (js : List DownloadJob) : ∀ defers : List Res,
    closesOf (workerRunAux env js defers) =
      (acquiresOf (workerRunAux env js defers)).reverse ++ defers.reverse := by
  induction js with
  | nil =>
    intro defers
    show closesOf (defers.reverse.map WEvent.close) =
      (acquiresOf (defers.reverse.map WEvent.close)).reverse ++ defers.reverse
    rw [closesOf_map_close, acquiresOf_map_close]
    rfl
  | cons j rest ih =>
    intro defers
    simp only [workerRunAux, closesOf, acquiresOf, List.filterMap_cons,
      List.filterMap_append]
    have hacq := acquiresOf_map_acq (runJob env j).acquired
    have hcls := closesOf_map_acq (runJob env j).acquired
    simp only [closesOf, acquiresOf] at hacq hcls ih
    rw [hacq, hcls, ih (defers ++ (runJob env j).acquired)]
    simp [List.reverse_append, List.append_assoc]

theorem isClose_took (i : Nat) : (WEvent.took i).isClose = false := rfl

theorem isClose_acq (r : Res) : (WEvent.acq r).isClose = false := rfl

theorem isClose_close (r : Res) : (WEvent.close r).isClose = true := rfl

theorem isClose_delivered (i : Nat) : (WEvent.delivered i).isClose = false := rfl

theorem workerRunAux_closes_last (env : DlEnv) (js : List DownloadJob) :
    ∀ defers : List Res,
    (workerRunAux env js defers).filter (fun e => ! e.isClose) ++
      (workerRunAux env js defers).filter (fun e => e.isClose) =
      workerRunAux env js defers := by
  induction js with
  | nil =>
    intro defers
    show (defers.reverse.map WEvent.close).filter (fun e => ! e.isClose) ++
      (defers.reverse.map WEvent.close).filter (fun e => e.isClose) =
      defers.reverse.map WEvent.close
    rw [List.filter_map, List.filter_map]
    have h1 : (defers.reverse.filter ((fun e => ! e.isClose) ∘ WEvent.close)) = [] := by
      simp [isClose_close, Function.comp]
    have h2 : (defers.reverse.filter ((fun e => e.isClose) ∘ WEvent.close)) =
        defers.reverse := by
      simp [isClose_close, Function.comp]
    rw [h1, h2]
    rfl
  | cons j rest ih =>
    intro defers
    have hthis := ih (defers ++ (runJob env j).acquired)
    simp only [workerRunAux, List.filter_cons, List.filter_append, List.filter_map,
      isClose_took, isClose_acq, isClose_delivered, Bool.not_false, Bool.not_true,
      if_true, if_false, Function.comp]
    have hall : List.filter ((fun e : WEvent => ! e.isClose) ∘ WEvent.acq)
        (runJob env j).acquired = (runJob env j).acquired := by
      simp [Function.comp, isClose_acq]
    have hnone : List.filter ((fun e : WEvent => e.isClose) ∘ WEvent.acq)
        (runJob env j).acquired = [] := by
      simp [Function.comp, isClose_acq]
    rw [hall, hnone]
    simp [hthis]

/-- C3 counterexample: a worker that is assigned two successfully-downloading
jobs takes the second job (the fifth trace event) while the first job's
response body and file are still open: no close of job 1's resources occurs
among the first five events, only at the very end of the worker's run.  The
`defer`red closes run when the goroutine's function returns, not at the end of
a loop iteration, so release is *not* "before the worker takes its next job". -/
theorem worker_close_after_next_take :
    WEvent.took 2 ∈
      (workerRun envOK [{ jobA with Index := 1 }, { jobB with Index := 2 }]).take 5 ∧
    WEvent.close (Res.body 1) ∉
      (workerRun envOK [{ jobA with Index := 1 }, { jobB with Index := 2 }]).take 5 ∧
    WEvent.close (Res.file 1) ∉
      (workerRun envOK [{ jobA with Index := 1 }, { jobB with Index := 2 }]).take 5 ∧
    WEvent.close (Res.body 1) ∈
      workerRun envOK [{ jobA with Index := 1 }, { jobB with Index := 2 }] ∧
    WEvent.close (Res.file 1) ∈
      workerRun envOK [{ jobA with Index := 1 }, { jobB with Index := 2 }] := by
  refine ⟨by decide, by decide, by decide, by decide, by decide⟩

/-- C3 (amended): every response body and destination file a worker acquires
is released on every exit path — but only when the worker goroutine itself
terminates: all deferred closes run after the processing and delivery of every
job assigned to that worker (all close events form the trace's suffix), in
LIFO order of acquisition, not before the worker takes its next job. -/
theorem worker_releases_all_at_exit (env : DlEnv) (jobs : List DownloadJob) :
    closesOf (workerRun env jobs) = (acquiresOf (workerRun env jobs)).reverse ∧
    (workerRun env jobs).filter (fun e => ! e.isClose) ++
      (workerRun env jobs).filter (fun e => e.isClose) = workerRun env jobs := by
  constructor
  · have h := workerRunAux_closes env jobs []
    simpa [workerRun] using h
  · exact workerRunAux_closes_last env jobs []

theorem Errorf_sev (b : Bool) (err : Option JobError) (msg : String) :
    (Errorf b err msg).sev = LOG_CAT_ERROR := by
  cases b <;> cases err <;> rfl

theorem filterMap_error_length (l : List DownloadJob) (f : DownloadJob → JobError → LogLine) :
    (l.filterMap (fun j => j.Error.map (f j))).length =
      (l.filter (fun j => j.Error.isSome)).length := by
  induction l with
  | nil => rfl
  | cons j t ih =>
    cases hj : j.Error <;>
      simp [List.filterMap_cons, List.filter_cons, hj, ih]

/-- C7: when `Download` runs without a result channel, nothing is delivered;
the emitted log output consists of exactly one `Errorf` line per processed job
with a non-absent outcome — each line at error severity, built from the job's
label (`"Error downloading " ++ label`) and the outcome's error text — and a
succeeding job contributes nothing, so the number of log lines equals the
number of failing jobs. -/
theorem nosink_logs_failures_only (env : DlEnv) (jobs : List DownloadJob) :
    (Download env jobs false).deliveries = [] ∧
    (Download env jobs false).logged =
      ((produceJobs jobs).map (fun j => (runJob env j).job)).filterMap (fun j =>
        j.Error.map (fun e =>
          Errorf env.loggerConfigured (some e) ("Error downloading " ++ j.Label))) ∧
    (Download env jobs false).logged.length =
      (((produceJobs jobs).map (fun j => (runJob env j).job)).filter
        (fun j => j.Error.isSome)).length ∧
    ((Download env jobs false).logged).all (fun l => l.sev == LOG_CAT_ERROR) = true := by
  cases hjs : jobs with
  | nil =>
    refine ⟨rfl, rfl, rfl, rfl⟩
  | cons j t =>
    have hne : (j :: t).isEmpty = false := rfl
    have hdel : (Download env (j :: t) false).deliveries = [] := by
      simp [Download]
    have hlog := Download_logged env (j :: t) hne
    refine ⟨hdel, hlog, ?_, ?_⟩
    · rw [hlog]
      exact filterMap_error_length _ _
    · rw [hlog, List.all_eq_true]
      intro l hl
      rw [List.mem_filterMap] at hl
      obtain ⟨x, _, hx⟩ := hl
      cases hE : x.Error with
      | none => rw [hE] at hx; simp at hx
      | some e =>
        rw [hE] at hx
        simp only [Option.map_some'] at hx
        rw [← Option.some_inj] at hx
        have hx2 : l = Errorf env.loggerConfigured (some e)
            ("Error downloading " ++ x.Label) := by
          cases hx
          rfl
        rw [hx2]
        simp [Errorf_sev]
